import Mathlib

/-!
Verification of the jitter-compensation buffer `intercom_buffer.py`
(class `Intercom_buffer`).

Shallow embedding conventions:
* A sample block (chunk) is modelled as the flattened `List Int` of its
  signed 16-bit sample values in frame-major, channel-minor order: the
  source flattens on send (`indata.flatten()`) and reshapes on receive
  (`np.asarray(chunk).reshape(frames_per_chunk, number_of_channels)`),
  and C-order flatten/reshape are mutually inverse for blocks of the
  configured geometry, so the flat list carries the same information.
* A wire packet is a `List Nat` of byte values (each `< 256` for real
  packets, since Python `bytes` elements are bytes).
* `struct.pack` raising (sequence number out of the unsigned 16-bit
  range, sample out of the signed 16-bit range) is modelled by `Option`;
  `struct.unpack` raising `struct.error` on a length mismatch is
  modelled by `Except Unit`.
* The mutable attributes `_buffer`, `recorded_chunk_number` and
  `played_chunk_number` of the object become the explicit record
  `BufState`; the configuration attributes become `Config`.
-/

namespace Intercom

/-- `Intercom_buffer.MAX_CHUNK_NUMBER = 65536` (line 42 of the source). -/
def MAX_CHUNK_NUMBER : Nat := 65536

/-- Configuration attributes set up by `init`: `chunks_to_buffer` comes
from the command line (default 8), `frames_per_chunk` and
`number_of_channels` from the parent class `Intercom_minimal`. -/
structure Config where
  chunks_to_buffer : Nat
  frames_per_chunk : Nat
  number_of_channels : Nat
  deriving Repr, DecidableEq

/-- Modelled from the spec: `samples_per_chunk` is an attribute of the
missing parent class `intercom_minimal.py`; the spec fixes the payload
of a packet as `frames_per_chunk × channels` signed 16-bit samples, so
`samples_per_chunk = frames_per_chunk * number_of_channels`. -/
def Config.samples_per_chunk (cfg : Config) : Nat :=
  cfg.frames_per_chunk * cfg.number_of_channels

/-- `self.cells_in_buffer = self.chunks_to_buffer * 2` (line 62). -/
def Config.cells_in_buffer (cfg : Config) : Nat :=
  cfg.chunks_to_buffer * 2

/-- A sample value fits the `h` (signed 16-bit) field of the packet
format `!H{samples_per_chunk}h`. -/
def ValidSample (s : Int) : Prop :=
  -32768 ≤ s ∧ s < 32768

instance (s : Int) : Decidable (ValidSample s) := by
  unfold ValidSample; infer_instance

/-- A sample block of the configured geometry: `samples_per_chunk`
values, each a signed 16-bit integer (the numpy arrays involved have
dtype `int16`, line 72). -/
def ValidChunk (cfg : Config) (ch : List Int) : Prop :=
  ch.length = cfg.samples_per_chunk ∧ ∀ s ∈ ch, ValidSample s

instance (cfg : Config) (ch : List Int) : Decidable (ValidChunk cfg ch) := by
  unfold ValidChunk; infer_instance

/-- Big-endian two's-complement encoding of one signed 16-bit value,
as `struct.pack` does for an `h` field in `!` (network) byte order. -/
def int16ToBytes (s : Int) : List Nat :=
  let u := (s % 65536).toNat
  [u / 256, u % 256]

/-- Big-endian decoding of one signed 16-bit value from two bytes, as
`struct.unpack` does for an `h` field in `!` byte order. -/
def bytesToInt16 (b0 b1 : Nat) : Int :=
  let u := b0 * 256 + b1
  if u < 32768 then (u : Int) else (u : Int) - 65536

/-- `struct.pack(self.packet_format, seq, *samples)` with
`packet_format = f"!H{samples_per_chunk}h"` (lines 71 and 123):
a big-endian unsigned 16-bit sequence number followed by the samples
as big-endian signed 16-bit values; `struct.error` (here `none`) if
the sequence number or a sample is out of range or the argument count
does not match the format. -/
def pack (cfg : Config) (seq : Nat) (samples : List Int) : Option (List Nat) :=
  if seq < MAX_CHUNK_NUMBER ∧ samples.length = cfg.samples_per_chunk ∧
      ∀ s ∈ samples, ValidSample s then
    some ([seq / 256, seq % 256] ++ samples.flatMap int16ToBytes)
  else
    none

/-- Helper for `unpack`: read consecutive big-endian signed 16-bit
values until the input is exhausted; an odd byte left over is a
length error. -/
def parseSamples : List Nat → Option (List Int)
  | [] => some []
  | b0 :: b1 :: rest => (parseSamples rest).map (fun l => bytesToInt16 b0 b1 :: l)
  | [_] => none

/-- `struct.unpack(self.packet_format, message)` (line 115):
`struct.error` (here `Except.error ()`) unless the message length is
exactly `calcsize("!H{N}h") = 2 + 2 * samples_per_chunk`; otherwise the
big-endian unsigned 16-bit sequence number followed by the decoded
sample values. -/
def unpack (cfg : Config) (message : List Nat) : Except Unit (Nat × List Int) :=
  if message.length = 2 + 2 * cfg.samples_per_chunk then
    match message with
    | b0 :: b1 :: rest =>
      match parseSamples rest with
      | some samples => Except.ok (b0 * 256 + b1, samples)
      | none => Except.error ()
    | _ => Except.error ()
  else
    Except.error ()

/-- Modelled from the spec: `generate_zero_chunk` is defined in the
missing parent class `intercom_minimal.py`; the spec says it yields an
all-zero (silent) sample block of the configured geometry. -/
def generate_zero_chunk (cfg : Config) : List Int :=
  List.replicate cfg.samples_per_chunk 0

/-- The mutable state of an `Intercom_buffer` object: the ring
`_buffer` (a list of `cells_in_buffer` chunks), the Recorded Cursor
`recorded_chunk_number` and the Played Cursor `played_chunk_number`. -/
structure BufState where
  buffer : List (List Int)
  recorded_chunk_number : Nat
  played_chunk_number : Nat
  deriving Repr, DecidableEq

/-- Lines 153–157 of `run`: the ring is filled with zero chunks and
both cursors start at 0. -/
def initState (cfg : Config) : BufState :=
  { buffer := List.replicate cfg.cells_in_buffer (generate_zero_chunk cfg)
    recorded_chunk_number := 0
    played_chunk_number := 0 }

/-- Line 116: store the chunk at position `chunk_number % cells_in_buffer`
of the ring (the assignment `self._buffer[chunk_number % self.cells_in_buffer] = …`). -/
def insert (cfg : Config) (st : BufState) (seq : Nat) (chunk : List Int) : BufState :=
  { st with buffer := st.buffer.set (seq % cfg.cells_in_buffer) chunk }

/-- `receive_and_buffer` after the blocking `self.receive()` (lines
115–117): unpack the message, insert the chunk at
`chunk_number % cells_in_buffer`, return `chunk_number`. A length
mismatch makes `struct.unpack` raise, modelled by `Except.error`:
nothing is inserted in that case. -/
def receive_and_buffer (cfg : Config) (st : BufState) (message : List Nat) :
    Except Unit (BufState × Nat) :=
  match unpack cfg message with
  | Except.error e => Except.error e
  | Except.ok (chunk_number, chunk) =>
    Except.ok (insert cfg st chunk_number chunk, chunk_number)

/-- `send` (lines 122–126): pack the flattened input with the current
`recorded_chunk_number`, advance the cursor by 1 modulo
`MAX_CHUNK_NUMBER`, hand the message to the transport
(`Intercom_minimal.send`). The produced message is returned alongside
the new state; a `struct.pack` failure (which in Python raises before
the cursor is advanced) is `none`. -/
def send (cfg : Config) (st : BufState) (indata : List Int) :
    Option (BufState × List Nat) :=
  match pack cfg st.recorded_chunk_number indata with
  | none => none
  | some message =>
    some ({ st with recorded_chunk_number :=
              (st.recorded_chunk_number + 1) % MAX_CHUNK_NUMBER },
          message)

/-- Lines 131–132 of `play`: read the slot at `cursor % cells_in_buffer`
and replace it in place by a zero chunk, returning the chunk read. -/
def take (cfg : Config) (st : BufState) (cursor : Nat) : BufState × List Int :=
  ({ st with buffer := st.buffer.set (cursor % cfg.cells_in_buffer)
               (generate_zero_chunk cfg) },
   st.buffer.getD (cursor % cfg.cells_in_buffer) (generate_zero_chunk cfg))

/-- `play` (lines 130–134): take the slot at the Played Cursor, advance
the Played Cursor by 1 modulo `cells_in_buffer`, and return the chunk
read (which the source copies into `outdata`). -/
def play (cfg : Config) (st : BufState) : BufState × List Int :=
  let r := take cfg st st.played_chunk_number
  ({ r.1 with played_chunk_number :=
       (st.played_chunk_number + 1) % cfg.cells_in_buffer },
   r.2)

/-- `record_send_and_play` (lines 137–141): one `send` of the captured
input followed by one `play` into the output buffer. Returns the new
state, the message sent and the chunk played. -/
def record_send_and_play (cfg : Config) (st : BufState) (indata : List Int) :
    Option (BufState × List Nat × List Int) :=
  match send cfg st indata with
  | none => none
  | some (st1, message) =>
    let r := play cfg st1
    some (r.1, message, r.2)

/-- Line 162 of `run`: the Played Cursor is primed to
`(first_received_chunk_number - chunks_to_buffer) % cells_in_buffer`,
with Python `%` semantics on a possibly negative left operand
(`Int.emod`, always non-negative for a positive modulus). -/
def initPlayedCursor (cfg : Config) (s0 : Nat) : Nat :=
  (((s0 : Int) - (cfg.chunks_to_buffer : Int)) % (cfg.cells_in_buffer : Int)).toNat

/-- The `while True: self.receive_and_buffer()` loop of `run` (lines
163–164), applied to a finite prefix of the arriving messages. The
loop body has no exception handler, so a `struct.error` raised by
`receive_and_buffer` propagates and terminates the loop: the result is
the state at that moment, the messages left unprocessed, and a flag
recording whether the loop was terminated by the exception. -/
def receiverLoop (cfg : Config) : BufState → List (List Nat) →
    BufState × List (List Nat) × Bool
  | st, [] => (st, [], false)
  | st, message :: rest =>
    match receive_and_buffer cfg st message with
    | Except.error _ => (st, rest, true)
    | Except.ok (st1, _) => receiverLoop cfg st1 rest

/-- Modelled from the spec: the behaviour §7 prescribes for the
Receiver Loop — a malformed packet is dropped and the loop continues
with the next packet. Used only to contrast with `receiverLoop`, the
loop the source actually implements. -/
def receiverLoopSpec (cfg : Config) : BufState → List (List Nat) → BufState
  | st, [] => st
  | st, message :: rest =>
    match receive_and_buffer cfg st message with
    | Except.error _ => receiverLoopSpec cfg st rest
    | Except.ok (st1, _) => receiverLoopSpec cfg st1 rest

/-- Iterated `send`, one call per captured block, threading the state;
`none` as soon as one `struct.pack` raises. Models the sequence of
sends performed by successive real-time callbacks. -/
def sendAll (cfg : Config) : BufState → List (List Int) → Option BufState
  | st, [] => some st
  | st, d :: rest =>
    match send cfg st d with
    | none => none
    | some (st1, _) => sendAll cfg st1 rest

/-- The sequence-number field of a packed message: its first two bytes,
big-endian. -/
def headerSeq : List Nat → Nat
  | b0 :: b1 :: _ => b0 * 256 + b1
  | _ => 0

/-! ## Helper lemmas -/

/-- A positive `chunks_to_buffer` makes the ring non-empty. -/
theorem cells_in_buffer_pos (cfg : Config) (h : 0 < cfg.chunks_to_buffer) :
    0 < cfg.cells_in_buffer := by
  unfold Config.cells_in_buffer
  omega

/-- Reading a just-written position of a list. -/
theorem getD_set_self (l : List α) (i : Nat) (a d : α) (h : i < l.length) :
    (l.set i a).getD i d = a := by
  rw [List.getD_eq_getElem?_getD, List.getElem?_set_eq_of_lt a h]
  rfl

/-! ## Claim theorems -/

/-- Claim C1: inserting `(c, B)` into the ring and then taking at a
cursor congruent to `c` modulo capacity returns exactly `B`; a second
take at the same cursor, with no intervening insert mapping to that
slot, returns a zero chunk (read-and-clear semantics). -/
theorem insert_take_round_trip (cfg : Config) (st : BufState) (c : Nat)
    (B : List Int) (cursor : Nat)
    (hlen : st.buffer.length = cfg.cells_in_buffer)
    (hpos : 0 < cfg.chunks_to_buffer)
    (hc : cursor % cfg.cells_in_buffer = c % cfg.cells_in_buffer) :
    (take cfg (insert cfg st c B) cursor).2 = B ∧
    (take cfg (take cfg (insert cfg st c B) cursor).1 cursor).2
      = generate_zero_chunk cfg := by
  have hcells : 0 < cfg.cells_in_buffer := cells_in_buffer_pos cfg hpos
  have hi : c % cfg.cells_in_buffer < st.buffer.length := by
    rw [hlen]
    exact Nat.mod_lt _ hcells
  have hi2 : c % cfg.cells_in_buffer
      < (st.buffer.set (c % cfg.cells_in_buffer) B).length := by
    simpa using hi
  constructor
  · simp only [take, insert, hc]
    exact getD_set_self _ _ _ _ hi
  · simp only [take, insert, hc]
    exact getD_set_self _ _ _ _ hi2

/-- Witness for C1: a concrete round trip (capacity 2, sequence number
3, cursor 1, one-sample block `[5]`). -/
theorem insert_take_round_trip_witness :
    ((initState ⟨1, 1, 1⟩).buffer.length = Config.cells_in_buffer ⟨1, 1, 1⟩ ∧
      0 < Config.chunks_to_buffer ⟨1, 1, 1⟩ ∧
      1 % Config.cells_in_buffer ⟨1, 1, 1⟩ = 3 % Config.cells_in_buffer ⟨1, 1, 1⟩) ∧
    (take ⟨1, 1, 1⟩ (insert ⟨1, 1, 1⟩ (initState ⟨1, 1, 1⟩) 3 [5]) 1).2 = [5] ∧
    (take ⟨1, 1, 1⟩
        (take ⟨1, 1, 1⟩ (insert ⟨1, 1, 1⟩ (initState ⟨1, 1, 1⟩) 3 [5]) 1).1 1).2
      = generate_zero_chunk ⟨1, 1, 1⟩ :=
  ⟨⟨by decide, by decide, by decide⟩,
   insert_take_round_trip ⟨1, 1, 1⟩ (initState ⟨1, 1, 1⟩) 3 [5] 1
     (by decide) (by decide) (by decide)⟩

/-- Claim C3: the Played Cursor primed from the first received sequence
number `s0` is `(s0 - chunks_to_buffer) mod capacity`: it lies in
`[0, capacity)` (even when `s0 < chunks_to_buffer`, thanks to Python's
always-non-negative `%`) and is congruent to `s0 - chunks_to_buffer`
modulo capacity. -/
theorem initPlayedCursor_spec (cfg : Config) (s0 : Nat)
    (h : 0 < cfg.chunks_to_buffer) :
    initPlayedCursor cfg s0 < cfg.cells_in_buffer ∧
    (initPlayedCursor cfg s0 + cfg.chunks_to_buffer) % cfg.cells_in_buffer
      = s0 % cfg.cells_in_buffer := by
  have hm : (0 : Int) < (cfg.cells_in_buffer : Int) := by
    exact_mod_cast cells_in_buffer_pos cfg h
  have hne : (cfg.cells_in_buffer : Int) ≠ 0 := ne_of_gt hm
  have he0 : 0 ≤ ((s0 : Int) - (cfg.chunks_to_buffer : Int))
      % (cfg.cells_in_buffer : Int) := Int.emod_nonneg _ hne
  have he1 : ((s0 : Int) - (cfg.chunks_to_buffer : Int))
      % (cfg.cells_in_buffer : Int) < (cfg.cells_in_buffer : Int) :=
    Int.emod_lt_of_pos _ hm
  constructor
  · unfold initPlayedCursor
    exact (Int.toNat_lt he0).mpr he1
  · have key : (((s0 : Int) - (cfg.chunks_to_buffer : Int))
        % (cfg.cells_in_buffer : Int) + (cfg.chunks_to_buffer : Int))
        % (cfg.cells_in_buffer : Int) = (s0 : Int) % (cfg.cells_in_buffer : Int) := by
      rw [Int.emod_add_emod, sub_add_cancel]
    have hcast : (((initPlayedCursor cfg s0 + cfg.chunks_to_buffer)
        % cfg.cells_in_buffer : Nat) : Int)
        = ((s0 % cfg.cells_in_buffer : Nat) : Int) := by
      push_cast
      unfold initPlayedCursor
      rw [Int.toNat_of_nonneg he0]
      exact key
    exact_mod_cast hcast

/-- Witness for C3: the spec's concrete instance — first arrival 100
with `chunks_to_buffer = 8` (capacity 16) primes the Played Cursor to
12 — and a wrap-below-zero instance `s0 = 3` giving 11. -/
theorem initPlayedCursor_spec_witness :
    0 < Config.chunks_to_buffer ⟨8, 1, 1⟩ ∧
    initPlayedCursor ⟨8, 1, 1⟩ 100 < Config.cells_in_buffer ⟨8, 1, 1⟩ ∧
    initPlayedCursor ⟨8, 1, 1⟩ 100 = 12 ∧
    initPlayedCursor ⟨8, 1, 1⟩ 3 = 11 ∧
    (initPlayedCursor ⟨8, 1, 1⟩ 3 + Config.chunks_to_buffer ⟨8, 1, 1⟩)
        % Config.cells_in_buffer ⟨8, 1, 1⟩ = 3 % Config.cells_in_buffer ⟨8, 1, 1⟩ :=
  ⟨by decide, (initPlayedCursor_spec ⟨8, 1, 1⟩ 100 (by decide)).1, by decide,
   by decide, (initPlayedCursor_spec ⟨8, 1, 1⟩ 3 (by decide)).2⟩

/-- Claim C4: `insert` unconditionally overwrites: after two inserts
whose sequence numbers map to the same slot, a take at that slot yields
the second payload. -/
theorem insert_overwrites (cfg : Config) (st : BufState) (s1 s2 : Nat)
    (P0 P8 : List Int) (cursor : Nat)
    (hlen : st.buffer.length = cfg.cells_in_buffer)
    (hpos : 0 < cfg.chunks_to_buffer)
    (h12 : s1 % cfg.cells_in_buffer = s2 % cfg.cells_in_buffer)
    (hcur : cursor % cfg.cells_in_buffer = s1 % cfg.cells_in_buffer) :
    (take cfg (insert cfg (insert cfg st s1 P0) s2 P8) cursor).2 = P8 := by
  have hcells : 0 < cfg.cells_in_buffer := cells_in_buffer_pos cfg hpos
  have hi : s2 % cfg.cells_in_buffer
      < (st.buffer.set (s2 % cfg.cells_in_buffer) P0).length := by
    simp only [List.length_set, hlen]
    exact Nat.mod_lt _ hcells
  simp only [take, insert, hcur, h12]
  exact getD_set_self _ _ _ _ hi

/-- Witness for C4: the spec's overrun scenario — capacity 8
(`chunks_to_buffer = 4`), insert `seq = 0` with `P0 = [10]`, then
`seq = 8` with `P8 = [20]`; taking cursor 0 yields `[20]`. -/
theorem insert_overwrites_witness :
    ((initState ⟨4, 1, 1⟩).buffer.length = Config.cells_in_buffer ⟨4, 1, 1⟩ ∧
      0 < Config.chunks_to_buffer ⟨4, 1, 1⟩ ∧
      0 % Config.cells_in_buffer ⟨4, 1, 1⟩ = 8 % Config.cells_in_buffer ⟨4, 1, 1⟩ ∧
      0 % Config.cells_in_buffer ⟨4, 1, 1⟩ = 0 % Config.cells_in_buffer ⟨4, 1, 1⟩) ∧
    (take ⟨4, 1, 1⟩
        (insert ⟨4, 1, 1⟩ (insert ⟨4, 1, 1⟩ (initState ⟨4, 1, 1⟩) 0 [10]) 8 [20])
        0).2 = [20] :=
  ⟨⟨by decide, by decide, by decide, by decide⟩,
   insert_overwrites ⟨4, 1, 1⟩ (initState ⟨4, 1, 1⟩) 0 8 [10] [20] 0
     (by decide) (by decide) (by decide) (by decide)⟩

/-- Counterexample to claim C2 as stated: with `chunks_to_buffer = 1`,
one mono frame per chunk (expected packet length 4), the malformed
1-byte packet `[0]` makes `struct.unpack` raise inside
`receive_and_buffer`; `run`'s `while True` loop has no handler, so the
loop terminates (flag `true`) and the following well-formed packet
`[0, 0, 0, 1]` is never processed — the ring is left untouched instead
of receiving that chunk, contradicting "the receiver loop continues"
and "it is never terminated by a malformed packet". -/
theorem receiverLoop_dies_on_malformed :
    receiverLoop ⟨1, 1, 1⟩ (initState ⟨1, 1, 1⟩) [[0], [0, 0, 0, 1]]
      = (initState ⟨1, 1, 1⟩, [[0, 0, 0, 1]], true) ∧
    receiverLoopSpec ⟨1, 1, 1⟩ (initState ⟨1, 1, 1⟩) [[0], [0, 0, 0, 1]]
      = insert ⟨1, 1, 1⟩ (initState ⟨1, 1, 1⟩) 0 [1] := by
  constructor <;> decide

/-- Claim C2 as amended: on a packet whose byte length differs from
the expected fixed size, decoding fails (`struct.error`), the packet is
dropped without touching the ring (`receive_and_buffer` raises before
any insert, so the state is not corrupted), but the exception
propagates and terminates the receiver loop, leaving the remaining
packets unprocessed and the state exactly as it was. -/
theorem receiverLoop_malformed_behaviour (cfg : Config) (st : BufState)
    (message : List Nat) (rest : List (List Nat))
    (h : message.length ≠ 2 + 2 * cfg.samples_per_chunk) :
    unpack cfg message = Except.error () ∧
    receive_and_buffer cfg st message = Except.error () ∧
    receiverLoop cfg st (message :: rest) = (st, rest, true) := by
  have hu : unpack cfg message = Except.error () := by
    unfold unpack
    rw [if_neg h]
  have hr : receive_and_buffer cfg st message = Except.error () := by
    unfold receive_and_buffer
    rw [hu]
  refine ⟨hu, hr, ?_⟩
  unfold receiverLoop
  rw [hr]

/-- Witness for the amended C2: the concrete malformed packet `[0]`
(length 1 ≠ 4) aborts the loop with the good packet unprocessed. -/
theorem receiverLoop_malformed_behaviour_witness :
    ([0] : List Nat).length ≠ 2 + 2 * Config.samples_per_chunk ⟨1, 1, 1⟩ ∧
    unpack ⟨1, 1, 1⟩ [0] = Except.error () ∧
    receive_and_buffer ⟨1, 1, 1⟩ (initState ⟨1, 1, 1⟩) [0] = Except.error () ∧
    receiverLoop ⟨1, 1, 1⟩ (initState ⟨1, 1, 1⟩) [[0], [0, 0, 0, 1]]
      = (initState ⟨1, 1, 1⟩, [[0, 0, 0, 1]], true) :=
  ⟨by decide,
   (receiverLoop_malformed_behaviour ⟨1, 1, 1⟩ (initState ⟨1, 1, 1⟩) [0]
      [[0, 0, 0, 1]] (by decide)).1,
   (receiverLoop_malformed_behaviour ⟨1, 1, 1⟩ (initState ⟨1, 1, 1⟩) [0]
      [[0, 0, 0, 1]] (by decide)).2.1,
   (receiverLoop_malformed_behaviour ⟨1, 1, 1⟩ (initState ⟨1, 1, 1⟩) [0]
      [[0, 0, 0, 1]] (by decide)).2.2⟩

/-- Claim C5: one invocation of the real-time callback performs exactly
one send followed by one play: the message is packed with the
pre-callback Recorded Cursor (which then advances by 1 modulo
`MAX_CHUNK_NUMBER`), the output is the pre-callback content of the slot
at the Played Cursor, that slot is zeroed, and the Played Cursor
advances by 1 modulo capacity. -/
theorem record_send_and_play_spec (cfg : Config) (st st' : BufState)
    (indata : List Int) (message : List Nat) (out : List Int)
    (h : record_send_and_play cfg st indata = some (st', message, out)) :
    pack cfg st.recorded_chunk_number indata = some message ∧
    st'.recorded_chunk_number
      = (st.recorded_chunk_number + 1) % MAX_CHUNK_NUMBER ∧
    out = st.buffer.getD (st.played_chunk_number % cfg.cells_in_buffer)
      (generate_zero_chunk cfg) ∧
    st'.played_chunk_number
      = (st.played_chunk_number + 1) % cfg.cells_in_buffer ∧
    st'.buffer = st.buffer.set (st.played_chunk_number % cfg.cells_in_buffer)
      (generate_zero_chunk cfg) := by
  unfold record_send_and_play send play take at h
  cases hp : pack cfg st.recorded_chunk_number indata with
  | none =>
    rw [hp] at h
    exact absurd h (by simp)
  | some m =>
    rw [hp] at h
    simp only [Option.some.injEq, Prod.mk.injEq] at h
    obtain ⟨hst, hm, hout⟩ := h
    subst hst hm hout
    exact ⟨rfl, rfl, rfl, rfl, rfl⟩

/-- Witness for C5: a concrete callback invocation on the state whose
slot 0 holds `[7]`, capturing input `[9]`, with capacity 2. -/
theorem record_send_and_play_spec_witness :
    record_send_and_play ⟨1, 1, 1⟩ (insert ⟨1, 1, 1⟩ (initState ⟨1, 1, 1⟩) 0 [7]) [9]
      = some ({ buffer := [[0], [0]], recorded_chunk_number := 1,
                played_chunk_number := 1 }, [0, 0, 0, 9], [7]) ∧
    pack ⟨1, 1, 1⟩
        (insert ⟨1, 1, 1⟩ (initState ⟨1, 1, 1⟩) 0 [7]).recorded_chunk_number [9]
      = some [0, 0, 0, 9] ∧
    ([7] : List Int) = (insert ⟨1, 1, 1⟩ (initState ⟨1, 1, 1⟩) 0 [7]).buffer.getD
      ((insert ⟨1, 1, 1⟩ (initState ⟨1, 1, 1⟩) 0 [7]).played_chunk_number
        % Config.cells_in_buffer ⟨1, 1, 1⟩) (generate_zero_chunk ⟨1, 1, 1⟩) :=
  ⟨by decide,
   (record_send_and_play_spec ⟨1, 1, 1⟩ (insert ⟨1, 1, 1⟩ (initState ⟨1, 1, 1⟩) 0 [7])
      { buffer := [[0], [0]], recorded_chunk_number := 1, played_chunk_number := 1 }
      [9] [0, 0, 0, 9] [7] (by decide)).1,
   (record_send_and_play_spec ⟨1, 1, 1⟩ (insert ⟨1, 1, 1⟩ (initState ⟨1, 1, 1⟩) 0 [7])
      { buffer := [[0], [0]], recorded_chunk_number := 1, played_chunk_number := 1 }
      [9] [0, 0, 0, 9] [7] (by decide)).2.2.1⟩

/-- A successful `pack` exposes its layout and range checks. -/
theorem pack_eq_some (cfg : Config) (seq : Nat) (samples : List Int)
    (message : List Nat) (h : pack cfg seq samples = some message) :
    seq < MAX_CHUNK_NUMBER ∧ samples.length = cfg.samples_per_chunk ∧
    (∀ s ∈ samples, ValidSample s) ∧
    message = [seq / 256, seq % 256] ++ samples.flatMap int16ToBytes := by
  unfold pack at h
  split at h
  · next hc =>
    simp only [Option.some.injEq] at h
    exact ⟨hc.1, hc.2.1, hc.2.2, h.symm⟩
  · exact absurd h (by simp)

/-- Claim C6: each `send` packs the current Recorded Cursor into the
header and advances the cursor by 1 modulo `MAX_CHUNK_NUMBER`, so two
consecutive sends carry consecutive (mod 65536) sequence numbers. -/
theorem send_consecutive_seq (cfg : Config) (st st1 st2 : BufState)
    (d1 d2 : List Int) (m1 m2 : List Nat)
    (h1 : send cfg st d1 = some (st1, m1))
    (h2 : send cfg st1 d2 = some (st2, m2)) :
    pack cfg st.recorded_chunk_number d1 = some m1 ∧
    st1.recorded_chunk_number
      = (st.recorded_chunk_number + 1) % MAX_CHUNK_NUMBER ∧
    pack cfg st1.recorded_chunk_number d2 = some m2 ∧
    st2.recorded_chunk_number
      = (st1.recorded_chunk_number + 1) % MAX_CHUNK_NUMBER ∧
    headerSeq m1 = st.recorded_chunk_number ∧
    headerSeq m2 = (headerSeq m1 + 1) % MAX_CHUNK_NUMBER := by
  have hsplit : ∀ st st' : BufState, ∀ d m, send cfg st d = some (st', m) →
      pack cfg st.recorded_chunk_number d = some m ∧
      st'.recorded_chunk_number
        = (st.recorded_chunk_number + 1) % MAX_CHUNK_NUMBER := by
    intro st st' d m h
    unfold send at h
    cases hp : pack cfg st.recorded_chunk_number d with
    | none =>
      rw [hp] at h
      exact absurd h (by simp)
    | some msg =>
      rw [hp] at h
      simp only [Option.some.injEq, Prod.mk.injEq] at h
      obtain ⟨hst, hm⟩ := h
      subst hm
      exact ⟨rfl, by rw [← hst]⟩
  have hhead : ∀ seq samples m, pack cfg seq samples = some m →
      headerSeq m = seq := by
    intro seq samples m h
    obtain ⟨-, -, -, hm⟩ := pack_eq_some cfg seq samples m h
    subst hm
    show seq / 256 * 256 + seq % 256 = seq
    omega
  obtain ⟨hp1, hr1⟩ := hsplit st st1 d1 m1 h1
  obtain ⟨hp2, hr2⟩ := hsplit st1 st2 d2 m2 h2
  refine ⟨hp1, hr1, hp2, hr2, hhead _ _ _ hp1, ?_⟩
  rw [hhead _ _ _ hp2, hhead _ _ _ hp1, hr1]

/-- Witness for C6: two concrete sends from the initial state carry
sequence numbers 0 and 1. -/
theorem send_consecutive_seq_witness :
    send ⟨1, 1, 1⟩ (initState ⟨1, 1, 1⟩) [7]
      = some ({ buffer := [[0], [0]], recorded_chunk_number := 1,
                played_chunk_number := 0 }, [0, 0, 0, 7]) ∧
    send ⟨1, 1, 1⟩
        { buffer := [[0], [0]], recorded_chunk_number := 1, played_chunk_number := 0 }
        [9]
      = some ({ buffer := [[0], [0]], recorded_chunk_number := 2,
                played_chunk_number := 0 }, [0, 1, 0, 9]) ∧
    headerSeq [0, 0, 0, 7] = (initState ⟨1, 1, 1⟩).recorded_chunk_number ∧
    headerSeq [0, 1, 0, 9] = (headerSeq [0, 0, 0, 7] + 1) % MAX_CHUNK_NUMBER :=
  ⟨by decide, by decide,
   (send_consecutive_seq ⟨1, 1, 1⟩ (initState ⟨1, 1, 1⟩)
      { buffer := [[0], [0]], recorded_chunk_number := 1, played_chunk_number := 0 }
      { buffer := [[0], [0]], recorded_chunk_number := 2, played_chunk_number := 0 }
      [7] [9] [0, 0, 0, 7] [0, 1, 0, 9] (by decide) (by decide)).2.2.2.2.1,
   (send_consecutive_seq ⟨1, 1, 1⟩ (initState ⟨1, 1, 1⟩)
      { buffer := [[0], [0]], recorded_chunk_number := 1, played_chunk_number := 0 }
      { buffer := [[0], [0]], recorded_chunk_number := 2, played_chunk_number := 0 }
      [7] [9] [0, 0, 0, 7] [0, 1, 0, 9] (by decide) (by decide)).2.2.2.2.2⟩

/-- Decoding inverts encoding for one signed 16-bit value. -/
theorem bytesToInt16_int16ToBytes (s : Int) (hs : ValidSample s) :
    bytesToInt16 ((s % 65536).toNat / 256) ((s % 65536).toNat % 256) = s := by
  obtain ⟨h0, h1⟩ := hs
  unfold bytesToInt16
  have hu : (s % 65536).toNat / 256 * 256 + (s % 65536).toNat % 256
      = (s % 65536).toNat := by omega
  simp only [hu]
  split
  · next hlt => omega
  · next hge => omega

/-- Parsing the concatenated byte encodings of valid samples recovers
the sample list. -/
theorem parseSamples_flatMap (samples : List Int)
    (hv : ∀ s ∈ samples, ValidSample s) :
    parseSamples (samples.flatMap int16ToBytes) = some samples := by
  induction samples with
  | nil => rfl
  | cons s rest ih =>
    have hs : ValidSample s := hv s (List.mem_cons_self s rest)
    have hrest : ∀ x ∈ rest, ValidSample x := fun x hx =>
      hv x (List.mem_cons_of_mem s hx)
    rw [List.flatMap_cons]
    show parseSamples ((s % 65536).toNat / 256 :: (s % 65536).toNat % 256 ::
      rest.flatMap int16ToBytes) = some (s :: rest)
    unfold parseSamples
    rw [ih hrest]
    simp only [Option.map_some', Option.some.injEq, List.cons.injEq]
    exact ⟨bytesToInt16_int16ToBytes s hs, trivial⟩

/-- The byte encoding of a sample list is twice as long. -/
theorem length_flatMap_int16ToBytes (samples : List Int) :
    (samples.flatMap int16ToBytes).length = 2 * samples.length := by
  induction samples with
  | nil => rfl
  | cons s rest ih =>
    rw [List.flatMap_cons, List.length_append, ih]
    show 2 + 2 * rest.length = 2 * (rest.length + 1)
    ring

/-- Claim C7: for every sequence number below 65536 and every sample
block of the configured geometry, `pack` succeeds with a packet of the
fixed size `2 + 2 × frames_per_chunk × channels` whose first two bytes
are the big-endian sequence number, and `unpack` inverts it exactly. -/
theorem codec_round_trip (cfg : Config) (seq : Nat) (samples : List Int)
    (hseq : seq < MAX_CHUNK_NUMBER) (hch : ValidChunk cfg samples) :
    ∃ bs, pack cfg seq samples = some bs ∧
      bs.length = 2 + 2 * cfg.samples_per_chunk ∧
      headerSeq bs = seq ∧
      unpack cfg bs = Except.ok (seq, samples) := by
  obtain ⟨hlen, hval⟩ := hch
  have hp : pack cfg seq samples
      = some ([seq / 256, seq % 256] ++ samples.flatMap int16ToBytes) := by
    unfold pack
    rw [if_pos ⟨hseq, hlen, hval⟩]
  refine ⟨_, hp, ?_, ?_, ?_⟩
  · rw [List.length_append, length_flatMap_int16ToBytes, hlen]
    rfl
  · show seq / 256 * 256 + seq % 256 = seq
    omega
  · unfold unpack
    have hl : ([seq / 256, seq % 256] ++ samples.flatMap int16ToBytes).length
        = 2 + 2 * cfg.samples_per_chunk := by
      rw [List.length_append, length_flatMap_int16ToBytes, hlen]
      rfl
    rw [if_pos hl]
    show (match parseSamples (samples.flatMap int16ToBytes) with
      | some s => Except.ok (seq / 256 * 256 + seq % 256, s)
      | none => Except.error ()) = Except.ok (seq, samples)
    rw [parseSamples_flatMap samples hval]
    show Except.ok (seq / 256 * 256 + seq % 256, samples) = Except.ok (seq, samples)
    have hq : seq / 256 * 256 + seq % 256 = seq := by omega
    rw [hq]

/-- Witness for C7: the concrete packet for sequence 258 and the
stereo-frame block `[5, -1]` (one frame, two channels) round-trips. -/
theorem codec_round_trip_witness :
    258 < MAX_CHUNK_NUMBER ∧ ValidChunk ⟨1, 1, 2⟩ [5, -1] ∧
    ∃ bs, pack ⟨1, 1, 2⟩ 258 [5, -1] = some bs ∧
      bs.length = 2 + 2 * Config.samples_per_chunk ⟨1, 1, 2⟩ ∧
      headerSeq bs = 258 ∧
      unpack ⟨1, 1, 2⟩ bs = Except.ok (258, [5, -1]) :=
  ⟨by decide, by decide, codec_round_trip ⟨1, 1, 2⟩ 258 [5, -1] (by decide) (by decide)⟩

/-- Claim C8: the ring capacity is `2 × chunks_to_buffer`; sequence
numbers wrap at `MAX_CHUNK_NUMBER = 65536`; every slot index computed
modulo capacity (as `insert` and `take` do) lies in `[0, capacity)`;
the Played Cursor stays below capacity after `play` and the Recorded
Cursor stays below 65536 after `send`. -/
theorem ring_invariants (cfg : Config) (h : 0 < cfg.chunks_to_buffer) :
    cfg.cells_in_buffer = 2 * cfg.chunks_to_buffer ∧
    MAX_CHUNK_NUMBER = 65536 ∧
    (∀ seq : Nat, seq % cfg.cells_in_buffer < cfg.cells_in_buffer) ∧
    (∀ st : BufState,
      (play cfg st).1.played_chunk_number < cfg.cells_in_buffer) ∧
    (∀ st st' : BufState, ∀ d m, send cfg st d = some (st', m) →
      st'.recorded_chunk_number < MAX_CHUNK_NUMBER) := by
  have hcells : 0 < cfg.cells_in_buffer := cells_in_buffer_pos cfg h
  refine ⟨?_, rfl, ?_, ?_, ?_⟩
  · unfold Config.cells_in_buffer
    ring
  · intro seq
    exact Nat.mod_lt _ hcells
  · intro st
    show (st.played_chunk_number + 1) % cfg.cells_in_buffer < cfg.cells_in_buffer
    exact Nat.mod_lt _ hcells
  · intro st st' d m hsend
    unfold send at hsend
    cases hp : pack cfg st.recorded_chunk_number d with
    | none =>
      rw [hp] at hsend
      exact absurd hsend (by simp)
    | some msg =>
      rw [hp] at hsend
      simp only [Option.some.injEq, Prod.mk.injEq] at hsend
      rw [← hsend.1]
      show (st.recorded_chunk_number + 1) % MAX_CHUNK_NUMBER < MAX_CHUNK_NUMBER
      exact Nat.mod_lt _ (by decide)

/-- Witness for C8: the default configuration (`chunks_to_buffer = 8`)
has capacity 16 and valid slot indices. -/
theorem ring_invariants_witness :
    0 < Config.chunks_to_buffer ⟨8, 1, 1⟩ ∧
    Config.cells_in_buffer ⟨8, 1, 1⟩ = 2 * Config.chunks_to_buffer ⟨8, 1, 1⟩ ∧
    100 % Config.cells_in_buffer ⟨8, 1, 1⟩ < Config.cells_in_buffer ⟨8, 1, 1⟩ :=
  ⟨by decide, (ring_invariants ⟨8, 1, 1⟩ (by decide)).1,
   (ring_invariants ⟨8, 1, 1⟩ (by decide)).2.2.1 100⟩

/-- Claim C9: frame conditions. `send` leaves every ring slot and the
Played Cursor unchanged; `play` leaves the Recorded Cursor and every
slot other than the one at the Played Cursor unchanged; `insert`
leaves both cursors and every slot other than `seq mod capacity`
unchanged. -/
theorem frame_conditions (cfg : Config) (st : BufState) :
    (∀ d, ∀ st' : BufState, ∀ m, send cfg st d = some (st', m) →
      st'.buffer = st.buffer ∧
      st'.played_chunk_number = st.played_chunk_number) ∧
    ((play cfg st).1.recorded_chunk_number = st.recorded_chunk_number ∧
      ∀ j : Nat, j ≠ st.played_chunk_number % cfg.cells_in_buffer →
        (play cfg st).1.buffer[j]? = st.buffer[j]?) ∧
    (∀ seq chunk,
      (insert cfg st seq chunk).recorded_chunk_number
        = st.recorded_chunk_number ∧
      (insert cfg st seq chunk).played_chunk_number
        = st.played_chunk_number ∧
      ∀ j : Nat, j ≠ seq % cfg.cells_in_buffer →
        (insert cfg st seq chunk).buffer[j]? = st.buffer[j]?) := by
  refine ⟨?_, ⟨rfl, ?_⟩, ?_⟩
  · intro d st' m hsend
    unfold send at hsend
    cases hp : pack cfg st.recorded_chunk_number d with
    | none =>
      rw [hp] at hsend
      exact absurd hsend (by simp)
    | some msg =>
      rw [hp] at hsend
      simp only [Option.some.injEq, Prod.mk.injEq] at hsend
      rw [← hsend.1]
      exact ⟨rfl, rfl⟩
  · intro j hj
    show (st.buffer.set (st.played_chunk_number % cfg.cells_in_buffer)
      (generate_zero_chunk cfg))[j]? = st.buffer[j]?
    exact List.getElem?_set_ne (Ne.symm hj)
  · intro seq chunk
    refine ⟨rfl, rfl, ?_⟩
    intro j hj
    show (st.buffer.set (seq % cfg.cells_in_buffer) chunk)[j]? = st.buffer[j]?
    exact List.getElem?_set_ne (Ne.symm hj)

/-- Witness for C9: on a concrete capacity-2 state, a `send` keeps the
ring and the Played Cursor, and an `insert` at slot 1 keeps slot 0. -/
theorem frame_conditions_witness :
    send ⟨1, 1, 1⟩ (initState ⟨1, 1, 1⟩) [7]
      = some ({ buffer := [[0], [0]], recorded_chunk_number := 1,
                played_chunk_number := 0 }, [0, 0, 0, 7]) ∧
    ({ buffer := [[0], [0]], recorded_chunk_number := 1,
       played_chunk_number := 0 } : BufState).buffer
      = (initState ⟨1, 1, 1⟩).buffer ∧
    (0 : Nat) ≠ 1 % Config.cells_in_buffer ⟨1, 1, 1⟩ ∧
    (insert ⟨1, 1, 1⟩ (initState ⟨1, 1, 1⟩) 1 [5]).buffer[0]?
      = (initState ⟨1, 1, 1⟩).buffer[0]? :=
  ⟨by decide,
   ((frame_conditions ⟨1, 1, 1⟩ (initState ⟨1, 1, 1⟩)).1 [7]
      { buffer := [[0], [0]], recorded_chunk_number := 1, played_chunk_number := 0 }
      [0, 0, 0, 7] (by decide)).1,
   by decide,
   ((frame_conditions ⟨1, 1, 1⟩ (initState ⟨1, 1, 1⟩)).2.2 1 [5]).2.2 0 (by decide)⟩

/-- Iterated `send` keeps the Recorded Cursor below
`MAX_CHUNK_NUMBER`. -/
theorem sendAll_recorded_lt (cfg : Config) :
    ∀ ds : List (List Int), ∀ st st' : BufState,
      st.recorded_chunk_number < MAX_CHUNK_NUMBER →
      sendAll cfg st ds = some st' →
      st'.recorded_chunk_number < MAX_CHUNK_NUMBER := by
  intro ds
  induction ds with
  | nil =>
    intro st st' hlt h
    unfold sendAll at h
    simp only [Option.some.injEq] at h
    rw [← h]
    exact hlt
  | cons d rest ih =>
    intro st st' hlt h
    unfold sendAll at h
    cases hs : send cfg st d with
    | none =>
      rw [hs] at h
      exact absurd h (by simp)
    | some p =>
      rw [hs] at h
      refine ih p.1 st' ?_ h
      unfold send at hs
      cases hp : pack cfg st.recorded_chunk_number d with
      | none =>
        rw [hp] at hs
        exact absurd hs (by simp)
      | some msg =>
        rw [hp] at hs
        simp only [Option.some.injEq] at hs
        rw [← hs]
        show (st.recorded_chunk_number + 1) % MAX_CHUNK_NUMBER < MAX_CHUNK_NUMBER
        exact Nat.mod_lt _ (by decide)

/-- Claim C10: from the initial state (Recorded Cursor 0), any number
of sends keeps the Recorded Cursor in `[0, 65536)`, so the unsigned
16-bit range check of `struct.pack` never fails on the sequence number:
a valid sample block always packs. Moreover every decoded sequence
number is in `[0, 65536)` (packets are bytes, each value below 256). -/
theorem recorded_cursor_safety (cfg : Config) :
    (∀ ds : List (List Int), ∀ st' : BufState,
      sendAll cfg (initState cfg) ds = some st' →
      st'.recorded_chunk_number < 65536) ∧
    (∀ st : BufState, ∀ d : List Int,
      st.recorded_chunk_number < 65536 → ValidChunk cfg d →
      ∃ st' m, send cfg st d = some (st', m)) ∧
    (∀ message : List Nat, ∀ seq : Nat, ∀ samples : List Int,
      (∀ b ∈ message, b < 256) →
      unpack cfg message = Except.ok (seq, samples) → seq < 65536) := by
  refine ⟨?_, ?_, ?_⟩
  · intro ds st' h
    exact sendAll_recorded_lt cfg ds (initState cfg) st'
      (by show (0 : Nat) < MAX_CHUNK_NUMBER; decide) h
  · intro st d hlt hv
    have hp : pack cfg st.recorded_chunk_number d
        = some ([st.recorded_chunk_number / 256, st.recorded_chunk_number % 256]
            ++ d.flatMap int16ToBytes) := by
      unfold pack
      rw [if_pos ⟨hlt, hv.1, hv.2⟩]
    refine ⟨{ st with recorded_chunk_number :=
        (st.recorded_chunk_number + 1) % MAX_CHUNK_NUMBER },
      [st.recorded_chunk_number / 256, st.recorded_chunk_number % 256]
        ++ d.flatMap int16ToBytes, ?_⟩
    unfold send
    rw [hp]
  · intro message seq samples hb h
    unfold unpack at h
    split at h
    · cases message with
      | nil => exact absurd h (by simp)
      | cons b0 t =>
        cases t with
        | nil => exact absurd h (by simp)
        | cons b1 rest =>
          have h2 : (match parseSamples rest with
              | some l => Except.ok (b0 * 256 + b1, l)
              | none => (Except.error () : Except Unit (Nat × List Int)))
              = Except.ok (seq, samples) := h
          cases hp : parseSamples rest with
          | none =>
            rw [hp] at h2
            exact absurd h2 (by simp)
          | some s =>
            rw [hp] at h2
            simp only [Except.ok.injEq, Prod.mk.injEq] at h2
            have hb0 : b0 < 256 := hb b0 (by simp)
            have hb1 : b1 < 256 := hb b1 (by simp)
            rw [← h2.1]
            omega
    · exact absurd h (by simp)

/-- Witness for C10: three concrete sends from the initial state leave
the cursor at 3 < 65536; a valid block sends from cursor 65535; the
all-ones packet decodes to sequence 65535 < 65536. -/
theorem recorded_cursor_safety_witness :
    sendAll ⟨1, 1, 1⟩ (initState ⟨1, 1, 1⟩) [[1], [2], [3]]
      = some { buffer := [[0], [0]], recorded_chunk_number := 3,
               played_chunk_number := 0 } ∧
    ({ buffer := [[0], [0]], recorded_chunk_number := 3,
       played_chunk_number := 0 } : BufState).recorded_chunk_number < 65536 ∧
    (∃ st' m, send ⟨1, 1, 1⟩
      { buffer := [[0], [0]], recorded_chunk_number := 65535,
        played_chunk_number := 0 } [4] = some (st', m)) ∧
    (∀ b ∈ ([255, 255, 255, 255] : List Nat), b < 256) ∧
    unpack ⟨1, 1, 1⟩ [255, 255, 255, 255] = Except.ok (65535, [-1]) ∧
    65535 < 65536 :=
  ⟨by decide, by decide,
   (recorded_cursor_safety ⟨1, 1, 1⟩).2.1
     { buffer := [[0], [0]], recorded_chunk_number := 65535, played_chunk_number := 0 }
     [4] (by decide) (by decide),
   by decide, by rfl,
   (recorded_cursor_safety ⟨1, 1, 1⟩).2.2 [255, 255, 255, 255] 65535 [-1]
     (by decide) (by rfl)⟩

end Intercom
